import Mathlib

/-!
Verification development for the admission-control and resilience core of
the dbadmin-ai CLI: the token-bucket rate limiter (`dbadmin/ai/rate_limiter.py`),
the connection circuit breaker (`dbadmin/connectors/postgresql.py`), and the
LLM fallback orchestration (`dbadmin/ai/llm.py`).

Modelling conventions:
- Python floats (token counts, timestamps, rates) are embedded as `ℚ`.
- Wall-clock reads (`time.monotonic()` / `time.time()`) become explicit `now`
  parameters supplied at each call.
- Mutable objects become explicit state threading; the per-provider and
  per-URL dictionaries become functions `String → Option _` updated with `upd`.
- Python's `/` raising `ZeroDivisionError` on a zero denominator is modelled
  by returning `Option ℚ` (`none` = the raised `ZeroDivisionError`).
- Exceptions become `Except` values.
-/

/-- Pointwise update of a string-keyed map; `upd f k none` models `del f[k]`. -/
def upd {α : Type} (f : String → Option α) (k : String) (v : Option α) :
    String → Option α :=
  fun q => if q = k then v else f q

/-! ## TokenBucket (`rate_limiter.py`, class `TokenBucket`) -/

/-- State of `TokenBucket`: `capacity`, `refill_rate` (tokens per second),
current `tokens`, and `last_refill` timestamp. -/
structure TokenBucket where
  capacity : ℚ
  refill_rate : ℚ
  tokens : ℚ
  last_refill : ℚ
deriving DecidableEq

/-- `TokenBucket.__init__`: tokens start at capacity, `last_refill` at the
current monotonic time. -/
def TokenBucket.fresh (capacity refill_rate now : ℚ) : TokenBucket :=
  ⟨capacity, refill_rate, capacity, now⟩

/-- `TokenBucket._refill`: `tokens = min(capacity, tokens + elapsed * refill_rate)`,
then `last_refill = now`. -/
def TokenBucket.refill (b : TokenBucket) (now : ℚ) : TokenBucket :=
  { b with
    tokens := min b.capacity (b.tokens + (now - b.last_refill) * b.refill_rate)
    last_refill := now }

/-- `TokenBucket.consume`: refill, then if enough tokens subtract and return
`true`, else return `false` leaving the (refilled) tokens unchanged. -/
def TokenBucket.consume (b : TokenBucket) (n : ℚ) (now : ℚ) : Bool × TokenBucket :=
  let b' := b.refill now
  if n ≤ b'.tokens then (true, { b' with tokens := b'.tokens - n })
  else (false, b')

/-- `TokenBucket.time_until_available`: refill, then `0` if enough tokens, else
`needed / refill_rate`. The division is unguarded in the source; a zero
`refill_rate` raises `ZeroDivisionError`, modelled as `none`. -/
def TokenBucket.time_until_available (b : TokenBucket) (n : ℚ) (now : ℚ) :
    Option ℚ × TokenBucket :=
  let b' := b.refill now
  if n ≤ b'.tokens then (some 0, b')
  else if b'.refill_rate = 0 then (none, b')
  else (some ((n - b'.tokens) / b'.refill_rate), b')

/-- Well-formedness of a bucket: non-negative rate and `0 ≤ tokens ≤ capacity`. -/
def bucketWF (b : TokenBucket) : Prop :=
  0 ≤ b.refill_rate ∧ 0 ≤ b.tokens ∧ b.tokens ≤ b.capacity

/-- Apply a sequence of `consume` operations, each a pair (amount, time). -/
def consumeSeq (b : TokenBucket) : List (ℚ × ℚ) → TokenBucket
  | [] => b
  | op :: rest => consumeSeq (b.consume op.1 op.2).2 rest

/-- Validity of an operation sequence started at time `t0`: amounts are
non-negative and times are non-decreasing (monotonic clock). -/
def opsValid : ℚ → List (ℚ × ℚ) → Prop
  | _, [] => True
  | t0, op :: rest => 0 ≤ op.1 ∧ t0 ≤ op.2 ∧ opsValid op.2 rest

/-! ## RateLimiter (`rate_limiter.py`, classes `RateLimitConfig`, `RateLimiter`) -/

/-- A per-provider override entry of `RateLimitConfig.provider_limits`; the
source reads it with `dict.get` and falls back to the global defaults, hence
the `Option` fields. -/
structure ProviderLimit where
  requests_per_minute : Option ℕ
  tokens_per_minute : Option ℕ
deriving DecidableEq

/-- `RateLimitConfig`. -/
structure RateLimitConfig where
  requests_per_minute : ℕ := 20
  tokens_per_minute : ℕ := 100000
  enabled : Bool := true
  provider_limits : String → Option ProviderLimit

/-- The default `provider_limits` dict of `RateLimitConfig`. -/
def default_provider_limits : String → Option ProviderLimit := fun p =>
  if p = "openai" then some ⟨some 60, some 150000⟩
  else if p = "groq" then some ⟨some 30, some 100000⟩
  else if p = "openrouter" then some ⟨some 100, some 200000⟩
  else if p = "anthropic" then some ⟨some 50, some 100000⟩
  else if p = "ollama" then some ⟨some 1000, some 10000000⟩
  else none

/-- One provider's slot of `RateLimiter` state. The source keeps three dicts
(`_request_buckets`, `_token_buckets`, `_usage_stats`) that `_get_buckets`
always populates together for a provider, so they are modelled as one entry
map. `stats` is the `(requests, tokens)` usage-counter pair. -/
structure ProviderEntry where
  reqBucket : TokenBucket
  tokBucket : TokenBucket
  stats : ℕ × ℕ
deriving DecidableEq

/-- `RateLimiter` per-provider state. -/
abbrev RLState := String → Option ProviderEntry

/-- `RateLimiter._get_limits`. -/
def get_limits (cfg : RateLimitConfig) (provider : String) : ℕ × ℕ :=
  match cfg.provider_limits provider with
  | some l => (l.requests_per_minute.getD cfg.requests_per_minute,
               l.tokens_per_minute.getD cfg.tokens_per_minute)
  | none => (cfg.requests_per_minute, cfg.tokens_per_minute)

/-- `RateLimiter._get_buckets`: lazily create the bucket pair and stats entry
for a provider; refill rates are per-minute limits divided by 60. -/
def get_buckets (cfg : RateLimitConfig) (st : RLState) (provider : String)
    (now : ℚ) : ProviderEntry × RLState :=
  match st provider with
  | some e => (e, st)
  | none =>
    let l := get_limits cfg provider
    let e : ProviderEntry :=
      ⟨TokenBucket.fresh (l.1 : ℚ) ((l.1 : ℚ) / 60) now,
       TokenBucket.fresh (l.2 : ℚ) ((l.2 : ℚ) / 60) now, (0, 0)⟩
    (e, upd st provider (some e))

/-- Outcomes of `RateLimiter.check_rate_limit`: the two `RateLimitExceeded`
raises (distinguished by their messages in the source, each carrying
`retry_after_seconds`), and the unhandled `ZeroDivisionError` escape from
`time_until_available`. -/
inductive RateLimitErr where
  | requestLimited (retry_after_seconds : ℚ)
  | tokenLimited (retry_after_seconds : ℚ)
  | zeroDiv
deriving DecidableEq

/-- `RateLimiter.check_rate_limit`. Mirrors the source order: consume from the
request bucket; on failure compute the wait and raise. Then consume from the
token bucket; on failure compute the wait, refund the request token
(`request_bucket.tokens += 1`), and raise. On success of both, increment the
usage stats by `(1, estimated_tokens)`. In-place bucket mutations are written
back into the provider map. -/
def check_rate_limit (cfg : RateLimitConfig) (st : RLState) (provider : String)
    (estimated_tokens : ℕ) (now : ℚ) : Except RateLimitErr Unit × RLState :=
  if cfg.enabled = false then (.ok (), st)
  else
    let gb := get_buckets cfg st provider now
    let e := gb.1
    let st1 := gb.2
    let cr := TokenBucket.consume e.reqBucket 1 now
    if cr.1 = false then
      let tu := TokenBucket.time_until_available cr.2 1 now
      let st2 := upd st1 provider (some { e with reqBucket := tu.2 })
      match tu.1 with
      | none => (.error .zeroDiv, st2)
      | some w => (.error (.requestLimited w), st2)
    else
      let ct := TokenBucket.consume e.tokBucket (estimated_tokens : ℚ) now
      if ct.1 = false then
        let tu := TokenBucket.time_until_available ct.2 (estimated_tokens : ℚ) now
        match tu.1 with
        | none =>
          (.error .zeroDiv,
           upd st1 provider (some { e with reqBucket := cr.2, tokBucket := tu.2 }))
        | some w =>
          (.error (.tokenLimited w),
           upd st1 provider (some { e with
             reqBucket := { cr.2 with tokens := cr.2.tokens + 1 }
             tokBucket := tu.2 }))
      else
        (.ok (),
         upd st1 provider (some { e with
           reqBucket := cr.2
           tokBucket := ct.2
           stats := (e.stats.1 + 1, e.stats.2 + estimated_tokens) }))

/-- `RateLimiter.record_actual_tokens`: no-op when disabled; otherwise
`diff = actual - estimated` and, when non-zero, `token_bucket.tokens -= diff`
(uncapped in both directions). -/
def record_actual_tokens (cfg : RateLimitConfig) (st : RLState)
    (provider : String) (actual_tokens estimated_tokens : ℕ) (now : ℚ) : RLState :=
  if cfg.enabled = false then st
  else
    let gb := get_buckets cfg st provider now
    let e := gb.1
    let st1 := gb.2
    let diff : ℤ := (actual_tokens : ℤ) - (estimated_tokens : ℤ)
    if diff = 0 then st1
    else
      upd st1 provider (some { e with
        tokBucket := { e.tokBucket with tokens := e.tokBucket.tokens - (diff : ℚ) } })

/-- `RateLimiter.get_remaining_capacity`: `(max 0 request_tokens, max 0 token_tokens)`;
no refill, no enabled check in the source. -/
def get_remaining_capacity (cfg : RateLimitConfig) (st : RLState)
    (provider : String) (now : ℚ) : ℚ × ℚ :=
  let gb := get_buckets cfg st provider now
  (max 0 gb.1.reqBucket.tokens, max 0 gb.1.tokBucket.tokens)

/-- `RateLimiter.get_usage_stats` for one provider. -/
def get_usage_stats (st : RLState) (provider : String) : ℕ × ℕ :=
  match st provider with
  | some e => e.stats
  | none => (0, 0)

/-! ## Circuit breaker (`connectors/postgresql.py`) -/

/-- The class-level circuit-breaker dictionaries of `PostgreSQLConnector`:
`_failure_count` and `_circuit_open_until`, both keyed by connection URL. -/
structure CBState where
  failure_count : String → Option ℕ
  circuit_open_until : String → Option ℚ

/-- `PostgreSQLConnector._FAILURE_THRESHOLD`. -/
def FAILURE_THRESHOLD : ℕ := 5

/-- `PostgreSQLConnector._CIRCUIT_TIMEOUT` (seconds). -/
def CIRCUIT_TIMEOUT : ℚ := 60

/-- `_check_circuit_breaker` body: if the URL has an open-until deadline in the
future, raise `ConnectionError` carrying the remaining seconds; if the deadline
has passed, delete it and reset the failure count to zero. -/
def CBState.check_breaker (s : CBState) (url : String) (now : ℚ) :
    Except ℚ CBState :=
  match s.circuit_open_until url with
  | some deadline =>
    if now < deadline then .error (deadline - now)
    else .ok ⟨upd s.failure_count url (some 0), upd s.circuit_open_until url none⟩
  | none => .ok s

/-- `_record_failure`: increment the count (`dict.get(url, 0) + 1`); at the
threshold, open the circuit until `now + _CIRCUIT_TIMEOUT`. -/
def CBState.record_failure (s : CBState) (url : String) (now : ℚ) : CBState :=
  let c := (s.failure_count url).getD 0 + 1
  let fc := upd s.failure_count url (some c)
  if FAILURE_THRESHOLD ≤ c then
    ⟨fc, upd s.circuit_open_until url (some (now + CIRCUIT_TIMEOUT))⟩
  else ⟨fc, s.circuit_open_until⟩

/-- `_record_success`: reset the failure count; delete the open-until entry if
present. -/
def CBState.record_success (s : CBState) (url : String) : CBState :=
  let fc := upd s.failure_count url (some 0)
  match s.circuit_open_until url with
  | some _ => ⟨fc, upd s.circuit_open_until url none⟩
  | none => ⟨fc, s.circuit_open_until⟩

/-- A `PostgreSQLConnector` instance: the per-instance fields relevant to the
circuit breaker (the breaker dictionaries themselves are class-level, i.e. the
shared `CBState`). -/
structure PGConnector where
  url : String
  pool_min_size : ℕ := 2
  pool_max_size : ℕ := 10

/-- Instance method `_check_circuit_breaker`: keyed by the instance's URL into
the shared class-level state. -/
def PGConnector.check_circuit_breaker (store : CBState) (c : PGConnector)
    (now : ℚ) : Except ℚ CBState :=
  CBState.check_breaker store c.url now

/-- Instance method `_record_failure`. -/
def PGConnector.record_failure (store : CBState) (c : PGConnector) (now : ℚ) :
    CBState :=
  CBState.record_failure store c.url now

/-- Instance method `_record_success`. -/
def PGConnector.record_success (store : CBState) (c : PGConnector) : CBState :=
  CBState.record_success store c.url

/-! ## Tenacity retry (`@retry(... stop_after_attempt, retry_if_exception_type)`
as used in `llm.py` and `postgresql.py`; only `connect` adds `reraise=True`) -/

/-- One step of the tenacity loop: `remaining` further attempts are allowed
after the current one, `made` attempts happened before it. A non-retryable
error is re-raised as-is at any attempt. A retryable error with attempts
remaining triggers another attempt; when the stop condition exhausts the
attempts of a retryable error, the decorator raises `exhausted e`: the
identity (re-raise the last exception) when `reraise=True`, a
`tenacity.RetryError` wrapping the last exception otherwise (tenacity's
default). Returns (result, final state, attempts made). -/
def tenacityGo {ε α σ : Type} (retryable : ε → Bool) (exhausted : ε → ε)
    (f : ℕ → σ → Except ε α × σ) : ℕ → ℕ → σ → Except ε α × σ × ℕ
  | 0, made, st =>
    match (f made st).1 with
    | .ok a => (.ok a, (f made st).2, made + 1)
    | .error e =>
      if retryable e then (.error (exhausted e), (f made st).2, made + 1)
      else (.error e, (f made st).2, made + 1)
  | rem + 1, made, st =>
    match (f made st).1 with
    | .ok a => (.ok a, (f made st).2, made + 1)
    | .error e =>
      if retryable e then
        tenacityGo retryable exhausted f rem (made + 1) (f made st).2
      else (.error e, (f made st).2, made + 1)

/-- `@retry(stop=stop_after_attempt(maxAttempts), retry=retry_if_exception_type(...))`
applied to an attempt function `f` (indexed by attempt number, threading state
`σ`); `exhausted` is what retry exhaustion raises (`id` under `reraise=True`,
a `RetryError` wrapper without it). -/
def tenacityRetry {ε α σ : Type} (retryable : ε → Bool) (exhausted : ε → ε)
    (maxAttempts : ℕ) (f : ℕ → σ → Except ε α × σ) (st : σ) :
    Except ε α × σ × ℕ :=
  tenacityGo retryable exhausted f (maxAttempts - 1) 0 st

/-! ## PostgreSQL connect with retry and circuit breaker -/

/-- Errors of the connect path: `psycopg.OperationalError`, the builtin
`ConnectionError` (which the circuit breaker itself raises, carrying the
remaining cool-down in its message), and any other exception. -/
inductive PgError where
  | operationalError
  | connectionError (retry_after : ℚ)
  | otherError
deriving DecidableEq

/-- The retry predicate of `connect`:
`retry_if_exception_type((psycopg.OperationalError, ConnectionError))`. -/
def pg_retryable : PgError → Bool
  | .operationalError => true
  | .connectionError _ => true
  | .otherError => false

/-- One un-decorated execution of `connect`: check the circuit breaker (its
raise is a `ConnectionError`), then acquire a pooled connection (outcome
abstracted as `pool k`); record success or failure in the breaker state. -/
def connect_once (c : PGConnector) (ts : ℕ → ℚ)
    (pool : ℕ → Except PgError Unit) (k : ℕ) (store : CBState) :
    Except PgError Unit × CBState :=
  match CBState.check_breaker store c.url (ts k) with
  | .error w => (.error (.connectionError w), store)
  | .ok s1 =>
    match pool k with
    | .ok _ => (.ok (), CBState.record_success s1 c.url)
    | .error e => (.error e, CBState.record_failure s1 c.url (ts k))

/-- `PostgreSQLConnector.connect`: `connect_once` under
`@retry(stop=stop_after_attempt(3), retry=retry_if_exception_type((OperationalError,
ConnectionError)), reraise=True)`; `reraise=True` makes exhaustion re-raise the
last exception itself (`id`). `ts k` is the wall-clock time of attempt `k`. -/
def PGConnector.connect (c : PGConnector) (store : CBState) (ts : ℕ → ℚ)
    (pool : ℕ → Except PgError Unit) : Except PgError Unit × CBState × ℕ :=
  tenacityRetry pg_retryable id 3 (connect_once c ts pool) store

/-! ## LLM client (`ai/llm.py`) -/

/-- The error taxonomy of an LLM call: the `openai` exception types `APIError`,
`APIConnectionError`, `RateLimitError`; the limiter's `RateLimitExceeded`
carrying `retry_after_seconds`; the unhandled `ZeroDivisionError` that a
zero-rate bucket makes `check_rate_limit` raise; and `tenacity.RetryError`
wrapping the last attempt's exception, which `complete`'s decorator raises on
retry exhaustion because it lacks `reraise=True`. -/
inductive LLMError where
  | apiError
  | apiConnectionError
  | rateLimitError
  | rateLimitExceeded (retry_after_seconds : ℚ)
  | zeroDivisionError
  | retryError (last : LLMError)
deriving DecidableEq

/-- The retry predicate of `LLMClient.complete`:
`retry_if_exception_type((APIConnectionError,))`. -/
def llm_retryable : LLMError → Bool
  | .apiConnectionError => true
  | _ => false

/-- A chat message (`dict` with `role` and `content`). -/
structure ChatMessage where
  role : String
  content : String
deriving DecidableEq

/-- The token estimate of `complete`:
`sum(len(m.get("content", "")) for m in messages) // 4 + max_tokens`. -/
def estimate_tokens (messages : List ChatMessage) (max_tokens : ℕ) : ℕ :=
  (messages.foldl (fun acc m => acc + m.content.length) 0) / 4 + max_tokens

/-- The successful outcome of `chat.completions.create`: the message content
and `response.usage.total_tokens` (absent usage is read as 0). -/
structure NetResult where
  content : String
  usage : Option ℕ
deriving DecidableEq

/-- `LLMResponse`. -/
structure LLMResponse where
  content : String
  model : String
  provider : String
  tokens_used : ℕ
  used_fallback : Bool
deriving DecidableEq

/-- One un-decorated execution of `LLMClient.complete` (attempt `k`): estimate
tokens, run `check_rate_limit` when enabled (its `RateLimitExceeded` raise
becomes `LLMError.rateLimitExceeded`), perform the network call (`net k`),
record actual token usage, and build the response with the client's provider
and `used_fallback = false`. -/
def complete_once (cfg : RateLimitConfig) (provider model : String)
    (messages : List ChatMessage) (max_tokens : ℕ) (check_rl : Bool)
    (tms : ℕ → ℚ) (net : ℕ → Except LLMError NetResult) (k : ℕ) (st : RLState) :
    Except LLMError LLMResponse × RLState :=
  let est := estimate_tokens messages max_tokens
  let now := tms k
  if check_rl then
    let c := check_rate_limit cfg st provider est now
    match c.1 with
    | .error (.requestLimited w) => (.error (.rateLimitExceeded w), c.2)
    | .error (.tokenLimited w) => (.error (.rateLimitExceeded w), c.2)
    | .error .zeroDiv => (.error .zeroDivisionError, c.2)
    | .ok _ =>
      match net k with
      | .error e => (.error e, c.2)
      | .ok res =>
        let actual := res.usage.getD 0
        let st2 := record_actual_tokens cfg c.2 provider actual est now
        (.ok ⟨res.content, model, provider, actual, false⟩, st2)
  else
    match net k with
    | .error e => (.error e, st)
    | .ok res => (.ok ⟨res.content, model, provider, res.usage.getD 0, false⟩, st)

/-- `LLMClient.complete`: `complete_once` under `@retry(stop=stop_after_attempt(3),
retry=retry_if_exception_type((APIConnectionError,)))`. This decorator has no
`reraise=True` (unlike `connect`), so exhausting the retries of an
`APIConnectionError` raises `tenacity.RetryError` wrapping the last error,
modelled by `LLMError.retryError`. -/
def llm_complete (cfg : RateLimitConfig) (st : RLState) (provider model : String)
    (messages : List ChatMessage) (max_tokens : ℕ) (check_rl : Bool)
    (tms : ℕ → ℚ) (net : ℕ → Except LLMError NetResult) :
    Except LLMError LLMResponse × RLState × ℕ :=
  tenacityRetry llm_retryable LLMError.retryError 3
    (complete_once cfg provider model messages max_tokens check_rl tms net) st

/-- `FALLBACK_CHAINS` (with `dict.get(provider, [])` baked in). -/
def FALLBACK_CHAINS (p : String) : List (String × String) :=
  if p = "openai" then
    [("groq", "llama-3.1-70b-versatile"), ("openrouter", "meta-llama/llama-3.1-70b-instruct")]
  else if p = "groq" then
    [("openrouter", "meta-llama/llama-3.1-70b-instruct"), ("openai", "gpt-4o-mini")]
  else if p = "anthropic" then
    [("openai", "gpt-4o"), ("groq", "llama-3.1-70b-versatile")]
  else if p = "openrouter" then
    [("groq", "llama-3.1-70b-versatile"), ("openai", "gpt-4o-mini")]
  else if p = "together" then
    [("groq", "llama-3.1-70b-versatile"), ("openrouter", "meta-llama/llama-3.1-70b-instruct")]
  else if p = "deepseek" then
    [("groq", "llama-3.1-70b-versatile"), ("openrouter", "meta-llama/llama-3.1-70b-instruct")]
  else if p = "ollama" then
    [("groq", "llama-3.1-8b-instant"), ("openrouter", "meta-llama/llama-3.1-8b-instruct:free")]
  else []

/-- The `env_key` field of `PROVIDERS` (with `PROVIDERS.get(p, {}).get("env_key")`
semantics: unknown providers and `ollama` both give `None`). -/
def provider_env_key (p : String) : Option String :=
  if p = "openrouter" then some "OPENROUTER_API_KEY"
  else if p = "groq" then some "GROQ_API_KEY"
  else if p = "ollama" then none
  else if p = "openai" then some "OPENAI_API_KEY"
  else if p = "anthropic" then some "ANTHROPIC_API_KEY"
  else if p = "together" then some "TOGETHER_API_KEY"
  else if p = "deepseek" then some "DEEPSEEK_API_KEY"
  else none

/-- The exception tuple caught by `complete_with_fallback`:
`(APIError, APIConnectionError, RateLimitError, RateLimitExceeded)`.
`tenacity.RetryError` is not in the tuple, so it is not caught. -/
def caught_by_fallback : LLMError → Bool
  | .apiError => true
  | .apiConnectionError => true
  | .rateLimitError => true
  | .rateLimitExceeded _ => true
  | .zeroDivisionError => false
  | .retryError _ => false

/-- The skip test of the fallback loop:
`if env_key and not os.getenv(env_key): continue`. -/
def is_skipped (env : String → Option String) (p : String) : Bool :=
  match provider_env_key p with
  | some k => (env k).isNone
  | none => false

/-- Provider identity of a freshly constructed `LLMClient(provider=p, ...)`:
the constructor switches to the `"custom"` provider whenever `LLM_BASE_URL`
is set in the environment. -/
def client_provider (env : String → Option String) (p : String) : String :=
  if (env "LLM_BASE_URL").isSome then "custom" else p

/-- Terminal outcomes of `complete_with_fallback`: the aggregate
`AllProvidersFailedError` with its ordered attempt records, or an exception
outside the caught tuple escaping raw. -/
inductive FallbackError where
  | allProvidersFailed (attempts : List (String × String × LLMError))
  | uncaught (e : LLMError)
deriving DecidableEq

/-- The fallback for-loop of `complete_with_fallback`: walk the chain in
order; skip alternates whose configured env key is unset; construct a client
(`client_provider`) and call `complete`; on success set `used_fallback := true`
and return; on a caught error append the record `(provider, model, error)` and
continue; when the chain is exhausted raise `AllProvidersFailedError` with the
accumulated records. -/
def fallback_loop (cfg : RateLimitConfig) (env : String → Option String)
    (messages : List ChatMessage) (max_tokens : ℕ) (tms : ℕ → ℚ)
    (net : String → String → ℕ → Except LLMError NetResult) :
    List (String × String) → List (String × String × LLMError) → RLState →
    Except FallbackError LLMResponse × RLState
  | [], errors, st => (.error (.allProvidersFailed errors), st)
  | fb :: rest, errors, st =>
    if is_skipped env fb.1 then
      fallback_loop cfg env messages max_tokens tms net rest errors st
    else
      let ap := client_provider env fb.1
      let r := llm_complete cfg st ap fb.2 messages max_tokens true tms (net ap fb.2)
      match r.1 with
      | .ok resp => (.ok { resp with used_fallback := true }, r.2.1)
      | .error e =>
        if caught_by_fallback e then
          fallback_loop cfg env messages max_tokens tms net rest
            (errors ++ [(fb.1, fb.2, e)]) r.2.1
        else (.error (.uncaught e), r.2.1)

/-- `LLMClient.complete_with_fallback`: try the primary (the client's own
provider and model); on a caught failure record it and walk the fallback
chain; errors outside the caught tuple escape raw. -/
def complete_with_fallback (cfg : RateLimitConfig) (st : RLState)
    (env : String → Option String) (primary_provider primary_model : String)
    (messages : List ChatMessage) (max_tokens : ℕ) (tms : ℕ → ℚ)
    (net : String → String → ℕ → Except LLMError NetResult) :
    Except FallbackError LLMResponse × RLState :=
  let r := llm_complete cfg st primary_provider primary_model messages
    max_tokens true tms (net primary_provider primary_model)
  match r.1 with
  | .ok resp => (.ok resp, r.2.1)
  | .error e =>
    if caught_by_fallback e then
      fallback_loop cfg env messages max_tokens tms net
        (FALLBACK_CHAINS primary_provider) [(primary_provider, primary_model, e)] r.2.1
    else (.error (.uncaught e), r.2.1)

/-- The attempt records expected from a chain when every non-skipped entry
fails with error `efun provider model`: one record per attempted entry, in
chain order, skipped entries excluded. Used to state the aggregate-failure
property. -/
def expected_records (env : String → Option String)
    (efun : String → String → LLMError) :
    List (String × String) → List (String × String × LLMError)
  | [] => []
  | fb :: rest =>
    if is_skipped env fb.1 then expected_records env efun rest
    else (fb.1, fb.2, efun fb.1 fb.2) :: expected_records env efun rest

/-! ## Helper lemmas -/

@[simp]
lemma upd_self {α : Type} (f : String → Option α) (k : String) (v : Option α) :
    upd f k v k = v := by
  simp [upd]

lemma consume_eq (b : TokenBucket) (n now : ℚ) :
    b.consume n now =
      if n ≤ (b.refill now).tokens
      then (true, { b.refill now with tokens := (b.refill now).tokens - n })
      else (false, b.refill now) := rfl

lemma time_until_available_eq (b : TokenBucket) (n now : ℚ) :
    b.time_until_available n now =
      if n ≤ (b.refill now).tokens then (some 0, b.refill now)
      else if (b.refill now).refill_rate = 0 then (none, b.refill now)
      else (some ((n - (b.refill now).tokens) / (b.refill now).refill_rate),
            b.refill now) := rfl

@[simp]
lemma refill_refill_rate (b : TokenBucket) (now : ℚ) :
    (b.refill now).refill_rate = b.refill_rate := rfl

@[simp]
lemma refill_capacity (b : TokenBucket) (now : ℚ) :
    (b.refill now).capacity = b.capacity := rfl

@[simp]
lemma refill_last_refill (b : TokenBucket) (now : ℚ) :
    (b.refill now).last_refill = now := rfl

lemma refill_tokens (b : TokenBucket) (now : ℚ) :
    (b.refill now).tokens
      = min b.capacity (b.tokens + (now - b.last_refill) * b.refill_rate) := rfl

lemma refill_bucketWF (b : TokenBucket) (now : ℚ) (hb : bucketWF b)
    (ht : b.last_refill ≤ now) : bucketWF (b.refill now) := by
  obtain ⟨hr, h0, hc⟩ := hb
  refine ⟨hr, ?_, ?_⟩
  · show 0 ≤ (b.refill now).tokens
    rw [refill_tokens]
    exact le_min (h0.trans hc)
      (add_nonneg h0 (mul_nonneg (sub_nonneg.mpr ht) hr))
  · show (b.refill now).tokens ≤ (b.refill now).capacity
    rw [refill_tokens, refill_capacity]
    exact min_le_left _ _

lemma consume_bucketWF (b : TokenBucket) (n now : ℚ) (hb : bucketWF b)
    (hn : 0 ≤ n) (ht : b.last_refill ≤ now) : bucketWF (b.consume n now).2 := by
  have hb' := refill_bucketWF b now hb ht
  obtain ⟨hr, h0, hc⟩ := hb'
  rw [consume_eq]
  by_cases h : n ≤ (b.refill now).tokens
  · rw [if_pos h]
    exact ⟨hr, sub_nonneg.mpr h, le_trans (sub_le_self _ hn) hc⟩
  · rw [if_neg h]
    exact ⟨hr, h0, hc⟩

lemma consume_last_refill (b : TokenBucket) (n now : ℚ) :
    (b.consume n now).2.last_refill = now := by
  rw [consume_eq]
  split <;> rfl

/-! ## Claim theorems: TokenBucket -/

/-- C2 (counterexample): the claim that `tokens` never exceeds `capacity`
including across the post-hoc adjustment of `record_actual_tokens` is false:
recording an actual usage below the estimate credits the bucket uncapped, so a
full bucket ends above capacity (here 100500 tokens in a 100000 bucket). -/
theorem record_actual_tokens_capacity_cex :
    ∃ e : ProviderEntry,
      (record_actual_tokens ⟨20, 100000, true, fun _ => none⟩ (fun _ => none)
        "p" 0 500 0) "p" = some e
      ∧ e.tokBucket.capacity < e.tokBucket.tokens := by
  refine ⟨_, rfl, ?_⟩
  norm_num [get_buckets, get_limits, TokenBucket.fresh]

/-- C2 (amended): under any sequence of `consume` calls with non-negative
amounts and a monotonic clock, a well-formed bucket keeps
`0 ≤ tokens ≤ capacity`; only the post-hoc adjustment path can leave that
range (in either direction). -/
theorem consume_seq_capacity_invariant (ops : List (ℚ × ℚ)) (b : TokenBucket)
    (hb : bucketWF b) (hv : opsValid b.last_refill ops) :
    0 ≤ (consumeSeq b ops).tokens
    ∧ (consumeSeq b ops).tokens ≤ (consumeSeq b ops).capacity := by
  induction ops generalizing b with
  | nil => exact ⟨hb.2.1, hb.2.2⟩
  | cons op rest ih =>
    obtain ⟨hn, ht, hrest⟩ := hv
    have h2 := consume_bucketWF b op.1 op.2 hb hn ht
    exact ih _ h2 (by rw [consume_last_refill]; exact hrest)

/-- C2 witness: the amended invariant evaluated on a capacity-5 bucket and a
concrete consume sequence. -/
theorem consume_seq_capacity_invariant_witness :
    bucketWF ⟨5, 1, 5, 0⟩
    ∧ (0 ≤ (consumeSeq ⟨5, 1, 5, 0⟩ [(3, 0), (3, 1), (2, 2)]).tokens
       ∧ (consumeSeq ⟨5, 1, 5, 0⟩ [(3, 0), (3, 1), (2, 2)]).tokens
         ≤ (consumeSeq ⟨5, 1, 5, 0⟩ [(3, 0), (3, 1), (2, 2)]).capacity) := by
  have hb : bucketWF (⟨5, 1, 5, 0⟩ : TokenBucket) := by
    refine ⟨by norm_num, by norm_num, by norm_num⟩
  have hv : opsValid (5, 1, 5, (0 : ℚ)).2.2.2 [(3, 0), (3, 1), (2, 2)] :=
    ⟨by norm_num, by norm_num, by norm_num, by norm_num, by norm_num, by norm_num, trivial⟩
  exact ⟨hb, consume_seq_capacity_invariant _ _ hb hv⟩

/-- C4: `consume(n)` refills to `min(capacity, tokens + elapsed * refill_rate)`,
succeeds and subtracts exactly when the refilled tokens cover `n`, and leaves
the (refilled) tokens unchanged on failure; a fresh capacity-5 bucket with no
time elapsing accepts consume(3), rejects consume(3), then accepts consume(2). -/
theorem consume_refill_semantics :
    (∀ (b : TokenBucket) (n now : ℚ),
      ((b.consume n now).1 = true ↔ n ≤ (b.refill now).tokens)
      ∧ (b.consume n now).2.tokens =
          (if n ≤ (b.refill now).tokens
           then (b.refill now).tokens - n else (b.refill now).tokens)
      ∧ (b.refill now).tokens
          = min b.capacity (b.tokens + (now - b.last_refill) * b.refill_rate))
    ∧ (∀ (r t0 : ℚ),
      ((TokenBucket.fresh 5 r t0).consume 3 t0).1 = true
      ∧ ((TokenBucket.fresh 5 r t0).consume 3 t0).2.tokens = 2
      ∧ (((TokenBucket.fresh 5 r t0).consume 3 t0).2.consume 3 t0).1 = false
      ∧ ((((TokenBucket.fresh 5 r t0).consume 3 t0).2.consume 3 t0).2.consume
          2 t0).1 = true) := by
  constructor
  · intro b n now
    refine ⟨?_, ?_, refill_tokens b now⟩
    · rw [consume_eq]
      split <;> simp_all
    · rw [consume_eq]
      split <;> simp_all
  · intro r t0
    have h0 : t0 - t0 = 0 := sub_self t0
    have hrf : ∀ c tk : ℚ, (⟨c, r, tk, t0⟩ : TokenBucket).refill t0
        = ⟨c, r, min c tk, t0⟩ := by
      intro c tk
      simp [TokenBucket.refill, h0]
    have s1 : (TokenBucket.fresh 5 r t0).consume 3 t0 = (true, ⟨5, r, 2, t0⟩) := by
      rw [show TokenBucket.fresh 5 r t0 = ⟨5, r, 5, t0⟩ from rfl, consume_eq, hrf 5 5]
      norm_num [min_def]
    have s2 : (TokenBucket.consume ⟨5, r, 2, t0⟩ 3 t0) = (false, ⟨5, r, 2, t0⟩) := by
      rw [consume_eq, hrf 5 2]
      norm_num [min_def]
    have s3 : (TokenBucket.consume ⟨5, r, 2, t0⟩ 2 t0) = (true, ⟨5, r, 0, t0⟩) := by
      rw [consume_eq, hrf 5 2]
      norm_num [min_def]
    refine ⟨?_, ?_, ?_, ?_⟩ <;> simp [s1, s2, s3]

/-- C9: with a positive refill rate `time_until_available` is total and
non-negative (`0` when tokens suffice, else `(n - tokens) / refill_rate`);
with a zero refill rate and insufficient tokens the unguarded division raises
`ZeroDivisionError` (modelled as `none`), and `_get_buckets` builds exactly
such a bucket for a provider configured with 0 tokens per minute. -/
theorem time_until_available_total :
    (∀ (b : TokenBucket) (n now : ℚ), 0 < b.refill_rate →
      ∃ w, (b.time_until_available n now).1 = some w ∧ 0 ≤ w
        ∧ (n ≤ (b.refill now).tokens → w = 0)
        ∧ (¬ n ≤ (b.refill now).tokens →
            w = (n - (b.refill now).tokens) / b.refill_rate))
    ∧ (∀ (b : TokenBucket) (n now : ℚ), b.refill_rate = 0 →
        ¬ n ≤ (b.refill now).tokens → (b.time_until_available n now).1 = none)
    ∧ (∀ (cfg : RateLimitConfig) (st : RLState) (p : String) (t : ℚ),
        st p = none → cfg.provider_limits p = none → cfg.tokens_per_minute = 0 →
        (get_buckets cfg st p t).1.tokBucket.refill_rate = 0
        ∧ (TokenBucket.time_until_available
            (get_buckets cfg st p t).1.tokBucket 1 t).1 = none) := by
  refine ⟨?_, ?_, ?_⟩
  · intro b n now h
    rw [time_until_available_eq]
    by_cases hn : n ≤ (b.refill now).tokens
    · exact ⟨0, by simp [hn], le_refl 0, fun _ => rfl, fun hc => absurd hn hc⟩
    · refine ⟨(n - (b.refill now).tokens) / b.refill_rate, ?_, ?_, ?_, ?_⟩
      · simp [hn, refill_refill_rate, h.ne']
      · exact div_nonneg (by linarith [not_le.mp hn]) h.le
      · intro hc; exact absurd hc hn
      · intro _; rfl
  · intro b n now h hn
    rw [time_until_available_eq]
    simp [hn, refill_refill_rate, h]
  · intro cfg st p t hst hpl htpm
    have hb : (get_buckets cfg st p t).1.tokBucket
        = TokenBucket.fresh ((cfg.tokens_per_minute : ℚ))
            ((cfg.tokens_per_minute : ℚ) / 60) t := by
      simp [get_buckets, hst, get_limits, hpl]
    rw [hb, htpm]
    refine ⟨by norm_num [TokenBucket.fresh], ?_⟩
    rw [time_until_available_eq]
    norm_num [TokenBucket.fresh, refill_tokens]

/-- C9 witness: the totality part evaluated on a concrete bucket with rate 2,
and the zero-rate part on a concrete 0-tokens-per-minute provider. -/
theorem time_until_available_total_witness :
    (0 < (2 : ℚ)
     ∧ ∃ w, (TokenBucket.time_until_available ⟨10, 2, 0, 0⟩ 4 0).1 = some w
        ∧ 0 ≤ w)
    ∧ ((TokenBucket.time_until_available
        (get_buckets ⟨20, 0, true, fun _ => none⟩ (fun _ => none) "p" 0).1.tokBucket
        1 0).1 = none) := by
  constructor
  · refine ⟨by norm_num, ?_⟩
    obtain ⟨w, hw, hw0, -, -⟩ :=
      time_until_available_total.1 ⟨10, 2, 0, 0⟩ 4 0 (by norm_num)
    exact ⟨w, hw, hw0⟩
  · exact (time_until_available_total.2.2 ⟨20, 0, true, fun _ => none⟩
      (fun _ => none) "p" 0 rfl rfl rfl).2

lemma get_buckets_snd {cfg : RateLimitConfig} {st st1 : RLState} {p : String}
    {now : ℚ} {e : ProviderEntry} (h : get_buckets cfg st p now = (e, st1)) :
    st1 p = some e := by
  unfold get_buckets at h
  cases hs : st p with
  | some e' =>
    rw [hs] at h
    injection h with h1 h2
    subst h1
    subst h2
    exact hs
  | none =>
    rw [hs] at h
    injection h with h1 h2
    subst h1
    subst h2
    simp [upd]

/-! ## Claim theorems: RateLimiter -/

/-- C1: with rate limiting enabled, when the request bucket grants its unit
but the token bucket cannot supply the estimate, `check_rate_limit` raises the
token-side `RateLimitExceeded` carrying `token_bucket.time_until_available(estimated)`,
refunds the request-bucket unit (`tokens + 1`), and leaves the usage stats
unchanged; when both consumes succeed it returns normally and increments the
stats by `(1, estimated)`. -/
theorem check_rate_limit_token_refund (cfg : RateLimitConfig) (st st1 : RLState)
    (p : String) (est : ℕ) (now : ℚ) (e : ProviderEntry)
    (hEn : cfg.enabled = true)
    (hGB : get_buckets cfg st p now = (e, st1)) :
    (∀ w,
      (TokenBucket.consume e.reqBucket 1 now).1 = true →
      (TokenBucket.consume e.tokBucket (est : ℚ) now).1 = false →
      (TokenBucket.time_until_available
        (TokenBucket.consume e.tokBucket (est : ℚ) now).2 (est : ℚ) now).1 = some w →
      (check_rate_limit cfg st p est now).1 = .error (.tokenLimited w)
      ∧ (check_rate_limit cfg st p est now).2 p = some
          { e with
            reqBucket := { (TokenBucket.consume e.reqBucket 1 now).2 with
              tokens := (TokenBucket.consume e.reqBucket 1 now).2.tokens + 1 }
            tokBucket := (TokenBucket.time_until_available
              (TokenBucket.consume e.tokBucket (est : ℚ) now).2 (est : ℚ) now).2 }
      ∧ get_usage_stats ((check_rate_limit cfg st p est now).2) p = e.stats)
    ∧ ((TokenBucket.consume e.reqBucket 1 now).1 = true →
       (TokenBucket.consume e.tokBucket (est : ℚ) now).1 = true →
       (check_rate_limit cfg st p est now).1 = .ok ()
       ∧ get_usage_stats ((check_rate_limit cfg st p est now).2) p
           = (e.stats.1 + 1, e.stats.2 + est)) := by
  constructor
  · intro w h1 h2 h3
    have hres : check_rate_limit cfg st p est now =
        (.error (.tokenLimited w),
         upd st1 p (some { e with
           reqBucket := { (TokenBucket.consume e.reqBucket 1 now).2 with
             tokens := (TokenBucket.consume e.reqBucket 1 now).2.tokens + 1 }
           tokBucket := (TokenBucket.time_until_available
             (TokenBucket.consume e.tokBucket (est : ℚ) now).2 (est : ℚ) now).2 })) := by
      simp only [check_rate_limit, hEn, hGB, h1, h2, h3]
      simp
    rw [hres]
    refine ⟨rfl, by simp [upd], by simp [get_usage_stats, upd]⟩
  · intro h1 h2
    have hres : check_rate_limit cfg st p est now =
        (.ok (),
         upd st1 p (some { e with
           reqBucket := (TokenBucket.consume e.reqBucket 1 now).2
           tokBucket := (TokenBucket.consume e.tokBucket (est : ℚ) now).2
           stats := (e.stats.1 + 1, e.stats.2 + est) })) := by
      simp only [check_rate_limit, hEn, hGB, h1, h2]
      simp
    rw [hres]
    exact ⟨rfl, by simp [get_usage_stats, upd]⟩

/-- C1 witness: a provider whose token bucket is empty; the request unit is
refunded, `retry_after_seconds = 500`, stats stay `(3, 40)`. -/
theorem check_rate_limit_token_refund_witness :
    (check_rate_limit ⟨100, 1000, true, fun _ => none⟩
      (upd (fun _ => none) "p" (some ⟨⟨10, 1, 5, 0⟩, ⟨1000, 1, 0, 0⟩, (3, 40)⟩))
      "p" 500 0).1 = .error (.tokenLimited 500)
    ∧ get_usage_stats ((check_rate_limit ⟨100, 1000, true, fun _ => none⟩
      (upd (fun _ => none) "p" (some ⟨⟨10, 1, 5, 0⟩, ⟨1000, 1, 0, 0⟩, (3, 40)⟩))
      "p" 500 0).2) "p" = (3, 40) := by
  have h := check_rate_limit_token_refund ⟨100, 1000, true, fun _ => none⟩
    (upd (fun _ => none) "p" (some ⟨⟨10, 1, 5, 0⟩, ⟨1000, 1, 0, 0⟩, (3, 40)⟩))
    (upd (fun _ => none) "p" (some ⟨⟨10, 1, 5, 0⟩, ⟨1000, 1, 0, 0⟩, (3, 40)⟩))
    "p" 500 0 ⟨⟨10, 1, 5, 0⟩, ⟨1000, 1, 0, 0⟩, (3, 40)⟩ rfl rfl
  obtain ⟨c1, -, c3⟩ := h.1 500
    (by norm_num [consume_eq, refill_tokens, min_def])
    (by norm_num [consume_eq, refill_tokens, min_def])
    (by norm_num [consume_eq, time_until_available_eq, refill_tokens, min_def])
  exact ⟨c1, c3⟩

lemma consume_fresh (c r n t : ℚ) (h : n ≤ c) :
    (TokenBucket.fresh c r t).consume n t = (true, ⟨c, r, c - n, t⟩) := by
  have hr : (TokenBucket.fresh c r t).refill t = ⟨c, r, c, t⟩ := by
    simp [TokenBucket.refill, TokenBucket.fresh]
  rw [consume_eq, hr]
  simp [h]

/-- C8: with rate limiting enabled, `record_actual_tokens(p, actual, estimated)`
changes the provider's token bucket by exactly `-(actual - estimated)` and
nothing else; when disabled it is a no-op; and the concrete reconciliation
scenario — `check_rate_limit(id, 500)` then `record_actual_tokens(id, 200, 500)`
on a fresh 1000-unit token bucket — leaves `get_remaining_capacity` reporting
800 tokens, more than 400. -/
theorem record_actual_tokens_delta :
    (∀ (cfg : RateLimitConfig) (st st1 : RLState) (p : String)
        (a est : ℕ) (now : ℚ) (e : ProviderEntry),
      cfg.enabled = true →
      get_buckets cfg st p now = (e, st1) →
      (record_actual_tokens cfg st p a est now) p = some
        { e with tokBucket := { e.tokBucket with
            tokens := e.tokBucket.tokens - ((a : ℚ) - (est : ℚ)) } })
    ∧ (∀ (cfg : RateLimitConfig) (st : RLState) (p : String) (a est : ℕ)
        (now : ℚ), cfg.enabled = false →
        record_actual_tokens cfg st p a est now = st)
    ∧ (∀ t0 t1 t2 : ℚ,
        (get_remaining_capacity ⟨100, 1000, true, fun _ => none⟩
          (record_actual_tokens ⟨100, 1000, true, fun _ => none⟩
            ((check_rate_limit ⟨100, 1000, true, fun _ => none⟩ (fun _ => none)
              "id" 500 t0).2) "id" 200 500 t1) "id" t2).2 = 800
        ∧ 400 < (get_remaining_capacity ⟨100, 1000, true, fun _ => none⟩
          (record_actual_tokens ⟨100, 1000, true, fun _ => none⟩
            ((check_rate_limit ⟨100, 1000, true, fun _ => none⟩ (fun _ => none)
              "id" 500 t0).2) "id" 200 500 t1) "id" t2).2) := by
  refine ⟨?_, ?_, ?_⟩
  · intro cfg st st1 p a est now e hEn hGB
    by_cases hd : ((a : ℤ) - (est : ℤ)) = 0
    · have h1 : record_actual_tokens cfg st p a est now = st1 := by
        simp only [record_actual_tokens, hEn, hGB]
        simp [hd]
      have hc : ((a : ℚ) - (est : ℚ)) = 0 := by exact_mod_cast hd
      rw [h1, get_buckets_snd hGB, hc, sub_zero]
    · have h1 : record_actual_tokens cfg st p a est now
          = upd st1 p (some { e with tokBucket := { e.tokBucket with
              tokens := e.tokBucket.tokens - ((((a : ℤ) - (est : ℤ)) : ℤ) : ℚ) } }) := by
        simp only [record_actual_tokens, hEn, hGB]
        simp [hd]
      rw [h1]
      simp [upd]
  · intro cfg st p a est now hEn
    simp [record_actual_tokens, hEn]
  · intro t0 t1 t2
    have hgb : get_buckets ⟨100, 1000, true, fun _ => none⟩ (fun _ => none) "id" t0
        = (⟨TokenBucket.fresh 100 (100 / 60) t0,
            TokenBucket.fresh 1000 (1000 / 60) t0, (0, 0)⟩,
           upd (fun _ => none) "id"
            (some ⟨TokenBucket.fresh 100 (100 / 60) t0,
              TokenBucket.fresh 1000 (1000 / 60) t0, (0, 0)⟩)) := by
      simp only [get_buckets, get_limits]
      norm_num
    have hc1 : (TokenBucket.consume (TokenBucket.fresh 100 (100 / 60) t0) 1 t0)
        = (true, ⟨100, 100 / 60, 99, t0⟩) := by
      rw [consume_fresh 100 (100 / 60) 1 t0 (by norm_num)]
      norm_num
    have hc2 : (TokenBucket.consume (TokenBucket.fresh 1000 (1000 / 60) t0)
        (500 : ℚ) t0) = (true, ⟨1000, 1000 / 60, 500, t0⟩) := by
      rw [consume_fresh 1000 (1000 / 60) 500 t0 (by norm_num)]
      norm_num
    have hcheck : (check_rate_limit ⟨100, 1000, true, fun _ => none⟩
        (fun _ => none) "id" 500 t0)
        = (.ok (), upd (upd (fun _ => none) "id"
            (some ⟨TokenBucket.fresh 100 (100 / 60) t0,
              TokenBucket.fresh 1000 (1000 / 60) t0, (0, 0)⟩)) "id"
            (some ⟨⟨100, 100 / 60, 99, t0⟩, ⟨1000, 1000 / 60, 500, t0⟩, (1, 500)⟩)) := by
      simp only [check_rate_limit, hgb]
      simp [hc1, hc2]
    rw [hcheck]
    have hrec : record_actual_tokens ⟨100, 1000, true, fun _ => none⟩
        (upd (upd (fun _ => none) "id"
          (some ⟨TokenBucket.fresh 100 (100 / 60) t0,
            TokenBucket.fresh 1000 (1000 / 60) t0, (0, 0)⟩)) "id"
          (some ⟨⟨100, 100 / 60, 99, t0⟩, ⟨1000, 1000 / 60, 500, t0⟩, (1, 500)⟩))
        "id" 200 500 t1
        = upd (upd (upd (fun _ => none) "id"
            (some ⟨TokenBucket.fresh 100 (100 / 60) t0,
              TokenBucket.fresh 1000 (1000 / 60) t0, (0, 0)⟩)) "id"
            (some ⟨⟨100, 100 / 60, 99, t0⟩, ⟨1000, 1000 / 60, 500, t0⟩, (1, 500)⟩))
            "id" (some ⟨⟨100, 100 / 60, 99, t0⟩, ⟨1000, 1000 / 60, 800, t0⟩, (1, 500)⟩) := by
      simp only [record_actual_tokens, get_buckets, upd_self]
      norm_num
    rw [hrec]
    constructor
    · simp only [get_remaining_capacity, get_buckets, upd_self]
      norm_num
    · simp only [get_remaining_capacity, get_buckets, upd_self]
      norm_num

/-- C8 witness: the general delta part evaluated on a concrete enabled
limiter state, and the disabled no-op at a concrete input. -/
theorem record_actual_tokens_delta_witness :
    ((record_actual_tokens ⟨100, 1000, true, fun _ => none⟩
      (upd (fun _ => none) "q" (some ⟨⟨10, 1, 5, 0⟩, ⟨1000, 1, 600, 0⟩, (2, 9)⟩))
      "q" 250 100 7) "q"
      = some ⟨⟨10, 1, 5, 0⟩, ⟨1000, 1, 450, 0⟩, (2, 9)⟩)
    ∧ record_actual_tokens ⟨100, 1000, false, fun _ => none⟩ (fun _ => none)
        "q" 250 100 7 = (fun _ => none) := by
  constructor
  · have h := record_actual_tokens_delta.1 ⟨100, 1000, true, fun _ => none⟩
      (upd (fun _ => none) "q" (some ⟨⟨10, 1, 5, 0⟩, ⟨1000, 1, 600, 0⟩, (2, 9)⟩))
      (upd (fun _ => none) "q" (some ⟨⟨10, 1, 5, 0⟩, ⟨1000, 1, 600, 0⟩, (2, 9)⟩))
      "q" 250 100 7 ⟨⟨10, 1, 5, 0⟩, ⟨1000, 1, 600, 0⟩, (2, 9)⟩ rfl rfl
    rw [h]
    norm_num
  · exact record_actual_tokens_delta.2.1 ⟨100, 1000, false, fun _ => none⟩
      (fun _ => none) "q" 250 100 7 rfl

lemma record_failure_count (s : CBState) (u : String) (t : ℚ) :
    (CBState.record_failure s u t).failure_count u
      = some ((s.failure_count u).getD 0 + 1) := by
  simp only [CBState.record_failure]
  split <;> simp [upd]

lemma record_failure_open_of_ge (s : CBState) (u : String) (t : ℚ)
    (h : FAILURE_THRESHOLD ≤ (s.failure_count u).getD 0 + 1) :
    (CBState.record_failure s u t).circuit_open_until u
      = some (t + CIRCUIT_TIMEOUT) := by
  unfold CBState.record_failure
  rw [if_pos h]
  simp [upd]

lemma record_success_count (s : CBState) (u : String) :
    (CBState.record_success s u).failure_count u = some 0 := by
  rcases hs : s.circuit_open_until u <;>
    simp [CBState.record_success, hs, upd]

lemma record_success_open (s : CBState) (u : String) :
    (CBState.record_success s u).circuit_open_until u = none := by
  rcases hs : s.circuit_open_until u <;>
    simp [CBState.record_success, hs, upd]

/-! ## Claim theorems: circuit breaker -/

/-- C3: from zero recorded failures, five consecutive `_record_failure` calls
open the circuit until `t5 + 60`; every `_check_circuit_breaker` before that
deadline raises carrying the remaining seconds; the first check at or after
the deadline passes, clears the open state and resets the count to zero; and
`_record_success` at any state resets the count and clears the open state. -/
theorem circuit_breaker_open_cooldown_reset (s0 s5 : CBState) (u : String)
    (t1 t2 t3 t4 t5 : ℚ) (h0 : (s0.failure_count u).getD 0 = 0)
    (hs5 : s5 = CBState.record_failure (CBState.record_failure
      (CBState.record_failure (CBState.record_failure
        (CBState.record_failure s0 u t1) u t2) u t3) u t4) u t5) :
    s5.circuit_open_until u = some (t5 + 60)
    ∧ (∀ t, t < t5 + 60 →
        CBState.check_breaker s5 u t = .error (t5 + 60 - t))
    ∧ (∀ t, t5 + 60 ≤ t → ∃ s', CBState.check_breaker s5 u t = .ok s'
        ∧ s'.failure_count u = some 0 ∧ s'.circuit_open_until u = none)
    ∧ (∀ s : CBState, (CBState.record_success s u).failure_count u = some 0
        ∧ (CBState.record_success s u).circuit_open_until u = none) := by
  have k1 : (CBState.record_failure s0 u t1).failure_count u = some 1 := by
    rw [record_failure_count, h0]
  have k2 : (CBState.record_failure (CBState.record_failure s0 u t1) u t2).failure_count u
      = some 2 := by
    rw [record_failure_count, k1]
    simp
  have k3 : (CBState.record_failure (CBState.record_failure
      (CBState.record_failure s0 u t1) u t2) u t3).failure_count u = some 3 := by
    rw [record_failure_count, k2]
    simp
  have k4 : (CBState.record_failure (CBState.record_failure (CBState.record_failure
      (CBState.record_failure s0 u t1) u t2) u t3) u t4).failure_count u = some 4 := by
    rw [record_failure_count, k3]
    simp
  have hopen : s5.circuit_open_until u = some (t5 + 60) := by
    rw [hs5, record_failure_open_of_ge _ u t5 (by rw [k4]; norm_num [FAILURE_THRESHOLD])]
    norm_num [CIRCUIT_TIMEOUT]
  refine ⟨hopen, ?_, ?_, ?_⟩
  · intro t ht
    simp [CBState.check_breaker, hopen, ht]
  · intro t ht
    have heq : CBState.check_breaker s5 u t
        = .ok ⟨upd s5.failure_count u (some 0), upd s5.circuit_open_until u none⟩ := by
      simp [CBState.check_breaker, hopen, not_lt.mpr ht]
    exact ⟨_, heq, by simp [upd], by simp [upd]⟩
  · intro s
    exact ⟨record_success_count s u, record_success_open s u⟩

/-- C3 witness: concrete run with failures at times 1..5 on a fresh breaker;
a check at `t = 10` is rejected with 55 seconds remaining, a check at `t = 70`
passes with the state reset. -/
theorem circuit_breaker_open_cooldown_reset_witness :
    CBState.check_breaker (CBState.record_failure (CBState.record_failure
      (CBState.record_failure (CBState.record_failure
        (CBState.record_failure ⟨fun _ => none, fun _ => none⟩ "db" 1) "db" 2)
        "db" 3) "db" 4) "db" 5) "db" 10 = .error 55
    ∧ ∃ s', CBState.check_breaker (CBState.record_failure (CBState.record_failure
        (CBState.record_failure (CBState.record_failure
          (CBState.record_failure ⟨fun _ => none, fun _ => none⟩ "db" 1) "db" 2)
          "db" 3) "db" 4) "db" 5) "db" 70 = .ok s'
        ∧ s'.failure_count "db" = some 0 := by
  have h := circuit_breaker_open_cooldown_reset ⟨fun _ => none, fun _ => none⟩
    (CBState.record_failure (CBState.record_failure (CBState.record_failure
      (CBState.record_failure (CBState.record_failure
        ⟨fun _ => none, fun _ => none⟩ "db" 1) "db" 2) "db" 3) "db" 4) "db" 5)
    "db" 1 2 3 4 5 rfl rfl
  constructor
  · have h2 := h.2.1 10 (by norm_num)
    rw [show (5 : ℚ) + 60 - 10 = 55 by norm_num] at h2
    exact h2
  · obtain ⟨s', heq, hc, -⟩ := h.2.2.1 70 (by norm_num)
    exact ⟨s', heq, hc⟩

/-- C10: the circuit-breaker dictionaries are class-level and keyed by URL, so
two connector instances with the same URL share one breaker entry: operations
through either instance coincide; failures recorded alternately through both
instances reach the shared threshold and open the circuit for both; a success
through one clears the state for both. -/
theorem pg_circuit_breaker_shared_state (c1 c2 : PGConnector)
    (store0 s5 : CBState) (h : c1.url = c2.url)
    (hstore0 : store0 = ⟨fun _ => none, fun _ => none⟩)
    (hs5 : s5 = PGConnector.record_failure (PGConnector.record_failure
      (PGConnector.record_failure (PGConnector.record_failure
        (PGConnector.record_failure store0 c1 0) c2 0) c1 0) c2 0) c1 0) :
    (∀ (store : CBState) (t : ℚ),
      PGConnector.record_failure store c1 t = PGConnector.record_failure store c2 t
      ∧ PGConnector.check_circuit_breaker store c1 t
          = PGConnector.check_circuit_breaker store c2 t
      ∧ PGConnector.record_success store c1 = PGConnector.record_success store c2)
    ∧ (∀ t : ℚ, t < 60 →
        PGConnector.check_circuit_breaker s5 c1 t = .error (60 - t)
        ∧ PGConnector.check_circuit_breaker s5 c2 t = .error (60 - t))
    ∧ ((PGConnector.record_success s5 c1).failure_count c2.url = some 0
       ∧ ∀ t' : ℚ, PGConnector.check_circuit_breaker
           (PGConnector.record_success s5 c1) c2 t'
           = .ok (PGConnector.record_success s5 c1)) := by
  subst hstore0
  have hshare : ∀ (store : CBState) (t : ℚ),
      PGConnector.record_failure store c1 t = PGConnector.record_failure store c2 t
      ∧ PGConnector.check_circuit_breaker store c1 t
          = PGConnector.check_circuit_breaker store c2 t
      ∧ PGConnector.record_success store c1 = PGConnector.record_success store c2 := by
    intro store t
    unfold PGConnector.record_failure PGConnector.check_circuit_breaker
      PGConnector.record_success
    rw [h]
    exact ⟨rfl, rfl, rfl⟩
  have hs5' : s5 = CBState.record_failure (CBState.record_failure
      (CBState.record_failure (CBState.record_failure (CBState.record_failure
        ⟨fun _ => none, fun _ => none⟩ c1.url 0) c1.url 0) c1.url 0) c1.url 0)
      c1.url 0 := by
    rw [hs5]
    unfold PGConnector.record_failure
    rw [h]
  have k1 : (CBState.record_failure ⟨fun _ => none, fun _ => none⟩ c1.url 0).failure_count c1.url
      = some 1 := by
    rw [record_failure_count]
    simp
  have k2 : (CBState.record_failure (CBState.record_failure
      ⟨fun _ => none, fun _ => none⟩ c1.url 0) c1.url 0).failure_count c1.url
      = some 2 := by
    rw [record_failure_count, k1]
    simp
  have k3 : (CBState.record_failure (CBState.record_failure (CBState.record_failure
      ⟨fun _ => none, fun _ => none⟩ c1.url 0) c1.url 0) c1.url 0).failure_count c1.url
      = some 3 := by
    rw [record_failure_count, k2]
    simp
  have k4 : (CBState.record_failure (CBState.record_failure (CBState.record_failure
      (CBState.record_failure ⟨fun _ => none, fun _ => none⟩ c1.url 0) c1.url 0)
      c1.url 0) c1.url 0).failure_count c1.url = some 4 := by
    rw [record_failure_count, k3]
    simp
  have hopen : s5.circuit_open_until c1.url = some 60 := by
    rw [hs5', record_failure_open_of_ge _ c1.url 0
      (by rw [k4]; norm_num [FAILURE_THRESHOLD])]
    norm_num [CIRCUIT_TIMEOUT]
  refine ⟨hshare, ?_, ?_, ?_⟩
  · intro t ht
    constructor
    · unfold PGConnector.check_circuit_breaker
      simp [CBState.check_breaker, hopen, ht]
    · unfold PGConnector.check_circuit_breaker
      rw [← h]
      simp [CBState.check_breaker, hopen, ht]
  · unfold PGConnector.record_success
    rw [← h]
    exact record_success_count s5 c1.url
  · intro t'
    unfold PGConnector.check_circuit_breaker PGConnector.record_success
    rw [← h]
    simp [CBState.check_breaker, record_success_open]

/-- C10 witness: two distinct connector instances with the same URL; failures
recorded alternately through both open the shared circuit, and a check through
the second instance at `t = 30` is rejected with 30 seconds remaining. -/
theorem pg_circuit_breaker_shared_state_witness :
    PGConnector.check_circuit_breaker (PGConnector.record_failure
      (PGConnector.record_failure (PGConnector.record_failure
        (PGConnector.record_failure (PGConnector.record_failure
          ⟨fun _ => none, fun _ => none⟩ ⟨"u", 2, 10⟩ 0) ⟨"u", 3, 8⟩ 0)
        ⟨"u", 2, 10⟩ 0) ⟨"u", 3, 8⟩ 0) ⟨"u", 2, 10⟩ 0) ⟨"u", 3, 8⟩ 30
      = .error 30 := by
  have h := pg_circuit_breaker_shared_state ⟨"u", 2, 10⟩ ⟨"u", 3, 8⟩
    ⟨fun _ => none, fun _ => none⟩
    (PGConnector.record_failure (PGConnector.record_failure
      (PGConnector.record_failure (PGConnector.record_failure
        (PGConnector.record_failure ⟨fun _ => none, fun _ => none⟩
          ⟨"u", 2, 10⟩ 0) ⟨"u", 3, 8⟩ 0) ⟨"u", 2, 10⟩ 0) ⟨"u", 3, 8⟩ 0)
      ⟨"u", 2, 10⟩ 0)
    rfl rfl rfl
  have h2 := (h.2.1 30 (by norm_num)).2
  rw [show (60 : ℚ) - 30 = 30 by norm_num] at h2
  exact h2

/-! ## Claim theorems: retry policy (C5) -/

/-- C5 (counterexample): the claim that an admission rejection is never
retried locally is false for the PostgreSQL path: the circuit breaker raises
`ConnectionError`, which is in `connect`'s retryable set, so with the circuit
open (until t = 100) `connect` makes 3 local attempts — not 1 — before
re-raising the circuit-open error. -/
theorem connect_retries_circuit_open_cex :
    (PGConnector.connect ⟨"db", 2, 10⟩
      ⟨fun _ => none, upd (fun _ => none) "db" (some 100)⟩
      (fun _ => 0) (fun _ => .error .operationalError)).2.2 = 3
    ∧ (PGConnector.connect ⟨"db", 2, 10⟩
      ⟨fun _ => none, upd (fun _ => none) "db" (some 100)⟩
      (fun _ => 0) (fun _ => .error .operationalError)).1
        = .error (.connectionError 100)
    ∧ CBState.check_breaker ⟨fun _ => none, upd (fun _ => none) "db" (some 100)⟩
        "db" 0 = .error 100
    ∧ (PGConnector.connect ⟨"db", 2, 10⟩
      ⟨fun _ => none, upd (fun _ => none) "db" (some 100)⟩
      (fun _ => 0) (fun _ => .error .operationalError)).2.2 ≠ 1 := by
  have hcb : CBState.check_breaker
      ⟨fun _ => none, upd (fun _ => none) "db" (some 100)⟩ "db" 0
      = .error 100 := by
    simp [CBState.check_breaker, upd]
  have hstep : ∀ k, connect_once ⟨"db", 2, 10⟩ (fun _ => 0)
      (fun _ => .error .operationalError) k
      ⟨fun _ => none, upd (fun _ => none) "db" (some 100)⟩
      = (.error (.connectionError 100),
         ⟨fun _ => none, upd (fun _ => none) "db" (some 100)⟩) := by
    intro k
    simp [connect_once, hcb]
  have hrun : PGConnector.connect ⟨"db", 2, 10⟩
      ⟨fun _ => none, upd (fun _ => none) "db" (some 100)⟩
      (fun _ => 0) (fun _ => .error .operationalError)
      = (.error (.connectionError 100),
         ⟨fun _ => none, upd (fun _ => none) "db" (some 100)⟩, 3) := by
    simp [PGConnector.connect, tenacityRetry, tenacityGo, hstep, pg_retryable]
  rw [hrun]
  exact ⟨rfl, rfl, hcb, by norm_num⟩

/-- C5 (amended): a `RateLimitExceeded` admission rejection in `complete` is
not retried locally (the retry predicate covers only `APIConnectionError`, so
the call fails after exactly 1 attempt); a persistent `APIConnectionError` is
retried in place up to the 3-attempt limit and then surfaces as
`tenacity.RetryError` wrapping the last connection error (`complete`'s
decorator has no `reraise=True`); but a circuit-open rejection in `connect`
is raised as `ConnectionError`, which IS in `connect`'s retryable set, so
`connect` locally retries it up to 3 attempts before re-raising it
(`connect` does have `reraise=True`). -/
theorem admission_rejection_retry_policy :
    (∀ (cfg : RateLimitConfig) (st st' : RLState) (p m : String)
        (messages : List ChatMessage) (mt : ℕ) (tms : ℕ → ℚ)
        (net : ℕ → Except LLMError NetResult) (w : ℚ),
      complete_once cfg p m messages mt true tms net 0 st
          = (.error (.rateLimitExceeded w), st') →
      llm_complete cfg st p m messages mt true tms net
          = (.error (.rateLimitExceeded w), st', 1))
    ∧ (∀ (cfg : RateLimitConfig) (st : RLState) (p m : String)
        (messages : List ChatMessage) (mt : ℕ) (tms : ℕ → ℚ)
        (net : ℕ → Except LLMError NetResult),
      (∀ (k : ℕ) (s : RLState),
        (complete_once cfg p m messages mt true tms net k s).1
          = .error .apiConnectionError) →
      (llm_complete cfg st p m messages mt true tms net).2.2 = 3
      ∧ (llm_complete cfg st p m messages mt true tms net).1
          = .error (.retryError .apiConnectionError))
    ∧ (∀ (c : PGConnector) (store : CBState) (ts : ℕ → ℚ)
        (pool : ℕ → Except PgError Unit) (d : ℚ),
      store.circuit_open_until c.url = some d →
      (∀ k, ts k < d) →
      (PGConnector.connect c store ts pool).2.2 = 3
      ∧ (PGConnector.connect c store ts pool).1
          = .error (.connectionError (d - ts 2))) := by
  refine ⟨?_, ?_, ?_⟩
  · intro cfg st st' p m messages mt tms net w h
    simp [llm_complete, tenacityRetry, tenacityGo, h, llm_retryable]
  · intro cfg st p m messages mt tms net h
    constructor <;>
      simp [llm_complete, tenacityRetry, tenacityGo, h, llm_retryable]
  · intro c store ts pool d hopen hts
    have hstep : ∀ k, connect_once c ts pool k store
        = (.error (.connectionError (d - ts k)), store) := by
      intro k
      simp [connect_once, CBState.check_breaker, hopen, hts k]
    constructor <;>
      simp [PGConnector.connect, tenacityRetry, tenacityGo, hstep, pg_retryable]

/-- C5 witness: a request-bucket-exhausted limiter makes `complete` fail after
exactly one attempt carrying `retry_after_seconds = 1`, while `connect` under
an open circuit performs 3 local attempts. -/
theorem admission_rejection_retry_policy_witness :
    llm_complete ⟨100, 1000, true, fun _ => none⟩
      (upd (fun _ => none) "p" (some ⟨⟨10, 1, 0, 0⟩, ⟨1000, 1, 1000, 0⟩, (0, 0)⟩))
      "p" "m" [] 0 true (fun _ => 0) (fun _ => .error .apiError)
      = (.error (.rateLimitExceeded 1),
         (complete_once ⟨100, 1000, true, fun _ => none⟩ "p" "m" [] 0 true
           (fun _ => 0) (fun _ => .error .apiError) 0
           (upd (fun _ => none) "p"
             (some ⟨⟨10, 1, 0, 0⟩, ⟨1000, 1, 1000, 0⟩, (0, 0)⟩))).2, 1)
    ∧ (PGConnector.connect ⟨"db2", 2, 10⟩
        ⟨fun _ => none, upd (fun _ => none) "db2" (some 100)⟩
        (fun _ => 7) (fun _ => .ok ())).2.2 = 3 := by
  constructor
  · have hc : TokenBucket.consume ⟨10, 1, 0, 0⟩ 1 0 = (false, ⟨10, 1, 0, 0⟩) := by
      rw [consume_eq]
      norm_num [TokenBucket.refill, min_def]
    have ht : TokenBucket.time_until_available ⟨10, 1, 0, 0⟩ 1 0
        = (some 1, ⟨10, 1, 0, 0⟩) := by
      rw [time_until_available_eq]
      norm_num [TokenBucket.refill, min_def]
    have h1 : (complete_once ⟨100, 1000, true, fun _ => none⟩ "p" "m" [] 0 true
        (fun _ => 0) (fun _ => .error .apiError) 0
        (upd (fun _ => none) "p"
          (some ⟨⟨10, 1, 0, 0⟩, ⟨1000, 1, 1000, 0⟩, (0, 0)⟩))).1
        = .error (.rateLimitExceeded 1) := by
      simp [complete_once, check_rate_limit, get_buckets, upd, estimate_tokens,
        hc, ht]
    exact admission_rejection_retry_policy.1 _ _ _ "p" "m" [] 0 (fun _ => 0)
      (fun _ => .error .apiError) 1 (Prod.ext h1 rfl)
  · exact (admission_rejection_retry_policy.2.2 ⟨"db2", 2, 10⟩
      ⟨fun _ => none, upd (fun _ => none) "db2" (some 100)⟩
      (fun _ => 7) (fun _ => .ok ()) 100 (by simp [upd])
      (fun k => by norm_num)).1

lemma tenacityGo_ok_shape {ε α σ : Type} (retryable : ε → Bool)
    (exhausted : ε → ε) (f : ℕ → σ → Except ε α × σ) (P : α → Prop)
    (hf : ∀ (k : ℕ) (s : σ) (a : α), (f k s).1 = .ok a → P a) :
    ∀ (rem made : ℕ) (st : σ) (a : α),
      (tenacityGo retryable exhausted f rem made st).1 = .ok a → P a := by
  intro rem
  induction rem with
  | zero =>
    intro made st a h
    rcases hm : (f made st).1 with e | v
    · simp only [tenacityGo, hm] at h
      by_cases hr : retryable e
      · rw [if_pos hr] at h
        simp at h
      · rw [if_neg hr] at h
        simp at h
    · simp only [tenacityGo, hm] at h
      simp at h
      subst h
      exact hf made st v hm
  | succ n ih =>
    intro made st a h
    rcases hm : (f made st).1 with e | v
    · simp only [tenacityGo, hm] at h
      by_cases hr : retryable e
      · rw [if_pos hr] at h
        exact ih (made + 1) _ a h
      · rw [if_neg hr] at h
        simp at h
    · simp only [tenacityGo, hm] at h
      simp at h
      subst h
      exact hf made st v hm

lemma complete_once_ok_shape (cfg : RateLimitConfig) (p m : String)
    (messages : List ChatMessage) (mt : ℕ) (crl : Bool) (tms : ℕ → ℚ)
    (net : ℕ → Except LLMError NetResult) (k : ℕ) (st : RLState)
    (a : LLMResponse)
    (h : (complete_once cfg p m messages mt crl tms net k st).1 = .ok a) :
    a.provider = p ∧ a.used_fallback = false := by
  cases crl with
  | false =>
    rcases hn : net k with e | res <;>
      simp [complete_once, hn] at h
    subst h
    exact ⟨rfl, rfl⟩
  | true =>
    rcases hcheck : (check_rate_limit cfg st p (estimate_tokens messages mt)
        (tms k)).1 with err | u
    · rcases err with w | w | _ <;> simp [complete_once, hcheck] at h
    · rcases hn : net k with e | res <;>
        simp [complete_once, hcheck, hn] at h
      subst h
      exact ⟨rfl, rfl⟩

lemma llm_complete_ok_shape (cfg : RateLimitConfig) (st : RLState)
    (p m : String) (messages : List ChatMessage) (mt : ℕ) (tms : ℕ → ℚ)
    (net : ℕ → Except LLMError NetResult) (r : LLMResponse)
    (h : (llm_complete cfg st p m messages mt true tms net).1 = .ok r) :
    r.provider = p ∧ r.used_fallback = false :=
  tenacityGo_ok_shape llm_retryable LLMError.retryError _
    (fun a => a.provider = p ∧ a.used_fallback = false)
    (fun k s a ha => complete_once_ok_shape cfg p m messages mt true tms net k s a ha)
    2 0 st r h

lemma fallback_loop_all_fail (cfg : RateLimitConfig)
    (env : String → Option String) (messages : List ChatMessage) (mt : ℕ)
    (tms : ℕ → ℚ) (net : String → String → ℕ → Except LLMError NetResult)
    (efun : String → String → LLMError) :
    ∀ (chain : List (String × String))
      (errors : List (String × String × LLMError)) (st : RLState),
    (∀ fb ∈ chain, is_skipped env fb.1 = false →
      caught_by_fallback (efun fb.1 fb.2) = true
      ∧ ∀ s : RLState, (llm_complete cfg s (client_provider env fb.1) fb.2
          messages mt true tms (net (client_provider env fb.1) fb.2)).1
          = .error (efun fb.1 fb.2)) →
    (fallback_loop cfg env messages mt tms net chain errors st).1
      = .error (.allProvidersFailed (errors ++ expected_records env efun chain)) := by
  intro chain
  induction chain with
  | nil =>
    intro errors st h
    simp [fallback_loop, expected_records]
  | cons fb rest ih =>
    intro errors st h
    by_cases hsk : is_skipped env fb.1 = true
    · simp only [fallback_loop, hsk, if_true, expected_records]
      exact ih errors st (fun fb' hm hs => h fb' (List.mem_cons_of_mem fb hm) hs)
    · have hsk' : is_skipped env fb.1 = false := by
        revert hsk
        cases is_skipped env fb.1 <;> simp
      obtain ⟨hcaught, herr⟩ := h fb (List.mem_cons_self fb rest) hsk'
      simp only [fallback_loop, hsk', Bool.false_eq_true, if_false, herr st,
        hcaught, if_true, expected_records]
      rw [ih (errors ++ [(fb.1, fb.2, efun fb.1 fb.2)]) _
        (fun fb' hm hs => h fb' (List.mem_cons_of_mem fb hm) hs)]
      simp

lemma fallback_loop_first_success (cfg : RateLimitConfig)
    (env : String → Option String) (messages : List ChatMessage) (mt : ℕ)
    (tms : ℕ → ℚ) (net : String → String → ℕ → Except LLMError NetResult)
    (r : LLMResponse) :
    ∀ (pre : List (String × String)) (fp fm : String)
      (post : List (String × String))
      (errors : List (String × String × LLMError)) (st : RLState),
    (∀ fb ∈ pre, is_skipped env fb.1 = true ∨
      ∃ e, caught_by_fallback e = true
        ∧ ∀ s : RLState, (llm_complete cfg s (client_provider env fb.1) fb.2
            messages mt true tms (net (client_provider env fb.1) fb.2)).1
            = .error e) →
    is_skipped env fp = false →
    (∀ s : RLState, (llm_complete cfg s (client_provider env fp) fm
        messages mt true tms (net (client_provider env fp) fm)).1 = .ok r) →
    (fallback_loop cfg env messages mt tms net (pre ++ (fp, fm) :: post)
        errors st).1
      = .ok { r with used_fallback := true } := by
  intro pre
  induction pre with
  | nil =>
    intro fp fm post errors st hpre hfp hok
    simp [fallback_loop, hfp, hok st]
  | cons fb rest ih =>
    intro fp fm post errors st hpre hfp hok
    by_cases hsk : is_skipped env fb.1 = true
    · simp only [List.cons_append, fallback_loop, hsk, if_true]
      exact ih fp fm post errors st
        (fun fb' hm => hpre fb' (List.mem_cons_of_mem fb hm)) hfp hok
    · have hsk' : is_skipped env fb.1 = false := by
        revert hsk
        cases is_skipped env fb.1 <;> simp
      rcases hpre fb (List.mem_cons_self fb rest) with hskT | ⟨e, hce, herr⟩
      · rw [hskT] at hsk'
        exact absurd hsk' (by simp)
      · simp only [List.cons_append, fallback_loop, hsk', Bool.false_eq_true,
          if_false, herr st, hce, if_true]
      
        exact ih fp fm post _ _
          (fun fb' hm => hpre fb' (List.mem_cons_of_mem fb hm)) hfp hok

/-! ## Claim theorems: fallback orchestration -/

/-- C6 (amended): when the primary fails with an error in the caught tuple
(`APIError`, `APIConnectionError`, `RateLimitError`, `RateLimitExceeded`) and
every non-skipped entry of its fallback chain fails with an error in that
tuple, `complete_with_fallback` raises a single `AllProvidersFailedError`
whose attempt records are, in call order, exactly one record per attempted
provider (the primary first, skipped providers excluded), and none of those
failures escapes raw. (Outside the tuple — the `tenacity.RetryError` produced
by retry exhaustion — the failure escapes raw instead; see the
counterexample.) -/
theorem complete_with_fallback_aggregate (cfg : RateLimitConfig) (st : RLState)
    (env : String → Option String) (pp pm : String)
    (messages : List ChatMessage) (mt : ℕ) (tms : ℕ → ℚ)
    (net : String → String → ℕ → Except LLMError NetResult) (e0 : LLMError)
    (efun : String → String → LLMError)
    (hPrimCaught : caught_by_fallback e0 = true)
    (hPrim : ∀ s : RLState, (llm_complete cfg s pp pm messages mt true tms
        (net pp pm)).1 = .error e0)
    (hChain : ∀ fb ∈ FALLBACK_CHAINS pp, is_skipped env fb.1 = false →
      caught_by_fallback (efun fb.1 fb.2) = true
      ∧ ∀ s : RLState, (llm_complete cfg s (client_provider env fb.1) fb.2
          messages mt true tms (net (client_provider env fb.1) fb.2)).1
          = .error (efun fb.1 fb.2)) :
    (complete_with_fallback cfg st env pp pm messages mt tms net).1
      = .error (.allProvidersFailed
          ((pp, pm, e0) :: expected_records env efun (FALLBACK_CHAINS pp))) := by
  simp only [complete_with_fallback, hPrim st, hPrimCaught, if_true]
  rw [fallback_loop_all_fail cfg env messages mt tms net efun
    (FALLBACK_CHAINS pp) [(pp, pm, e0)] _ hChain]
  simp

/-- C7: `complete_with_fallback` tries the primary first and, with no custom
base-URL override, walks the fallback chain in order, skipping alternates
whose configured env API key is unset; the first non-skipped successful
alternate's response is returned with `used_fallback = true` and its
`provider` field naming that alternate; a successful primary returns with
`used_fallback = false`. -/
theorem complete_with_fallback_ordering (cfg : RateLimitConfig) (st : RLState)
    (env : String → Option String) (pp pm : String)
    (messages : List ChatMessage) (mt : ℕ) (tms : ℕ → ℚ)
    (net : String → String → ℕ → Except LLMError NetResult)
    (hEnv : env "LLM_BASE_URL" = none) :
    (∀ r : LLMResponse,
      (llm_complete cfg st pp pm messages mt true tms (net pp pm)).1 = .ok r →
      (complete_with_fallback cfg st env pp pm messages mt tms net).1 = .ok r
      ∧ r.used_fallback = false)
    ∧ (∀ (pre post : List (String × String)) (fp fm : String) (e0 : LLMError)
        (r : LLMResponse),
      FALLBACK_CHAINS pp = pre ++ (fp, fm) :: post →
      caught_by_fallback e0 = true →
      (∀ s : RLState, (llm_complete cfg s pp pm messages mt true tms
          (net pp pm)).1 = .error e0) →
      (∀ fb ∈ pre, is_skipped env fb.1 = true ∨
        ∃ e, caught_by_fallback e = true
          ∧ ∀ s : RLState, (llm_complete cfg s fb.1 fb.2 messages mt true tms
              (net fb.1 fb.2)).1 = .error e) →
      is_skipped env fp = false →
      (∀ s : RLState, (llm_complete cfg s fp fm messages mt true tms
          (net fp fm)).1 = .ok r) →
      (complete_with_fallback cfg st env pp pm messages mt tms net).1
        = .ok { r with used_fallback := true }
      ∧ r.provider = fp ∧ r.used_fallback = false) := by
  have hcp : ∀ q, client_provider env q = q := by
    intro q
    simp [client_provider, hEnv]
  constructor
  · intro r h
    refine ⟨?_, (llm_complete_ok_shape cfg st pp pm messages mt tms
      (net pp pm) r h).2⟩
    simp only [complete_with_fallback, h]
  · intro pre post fp fm e0 r hchain hc0 hPrim hpre hfp hok
    have hok' : ∀ s : RLState, (llm_complete cfg s (client_provider env fp) fm
        messages mt true tms (net (client_provider env fp) fm)).1 = .ok r := by
      rw [hcp fp]
      exact hok
    have hpre' : ∀ fb ∈ pre, is_skipped env fb.1 = true ∨
        ∃ e, caught_by_fallback e = true
          ∧ ∀ s : RLState, (llm_complete cfg s (client_provider env fb.1) fb.2
              messages mt true tms (net (client_provider env fb.1) fb.2)).1
              = .error e := by
      intro fb hm
      rcases hpre fb hm with hs | ⟨e, hce, he⟩
      · exact Or.inl hs
      · right
        refine ⟨e, hce, ?_⟩
        rw [hcp fb.1]
        exact he
    constructor
    · simp only [complete_with_fallback, hPrim st, hc0, if_true, hchain]
      exact fallback_loop_first_success cfg env messages mt tms net r pre fp fm
        post _ _ hpre' hfp hok'
    · exact (llm_complete_ok_shape cfg st fp fm messages mt tms
        (net fp fm) r (hok st))

/-- C6 witness: primary `openai` and fallback `openrouter` both fail with
`APIError` while `groq` is skipped for lack of a key; the aggregate error
holds exactly the two attempt records in call order. -/
theorem complete_with_fallback_aggregate_witness :
    (complete_with_fallback ⟨100, 1000, false, fun _ => none⟩ (fun _ => none)
      (fun k => if k = "OPENROUTER_API_KEY" then some "x" else none)
      "openai" "gpt-4o" [] 0 (fun _ => 0) (fun _ _ _ => .error .apiError)).1
      = .error (.allProvidersFailed
          [("openai", "gpt-4o", .apiError),
           ("openrouter", "meta-llama/llama-3.1-70b-instruct", .apiError)]) := by
  have h := complete_with_fallback_aggregate ⟨100, 1000, false, fun _ => none⟩
    (fun _ => none) (fun k => if k = "OPENROUTER_API_KEY" then some "x" else none)
    "openai" "gpt-4o" [] 0 (fun _ => 0) (fun _ _ _ => .error .apiError)
    .apiError (fun _ _ => .apiError) rfl (fun s => rfl)
    (by
      intro fb hm hsk
      simp [FALLBACK_CHAINS] at hm
      rcases hm with rfl | rfl
      · simp [is_skipped, provider_env_key] at hsk
      · exact ⟨rfl, fun s => rfl⟩)
  rw [h]
  rfl

/-- C6 (counterexample): the claim's "single AllProvidersFailedError, never a
raw low-level exception" fails on the code. `complete`'s `@retry` has no
`reraise=True`, so a primary failing with three consecutive
`APIConnectionError`s makes `complete` raise `tenacity.RetryError`; that type
is outside `complete_with_fallback`'s except tuple, so it escapes to the
caller raw — no fallback is attempted (the openrouter key is even set) and no
`AllProvidersFailedError` is built. -/
theorem complete_with_fallback_retry_error_cex :
    (complete_with_fallback ⟨100, 1000, false, fun _ => none⟩ (fun _ => none)
      (fun k => if k = "OPENROUTER_API_KEY" then some "x" else none)
      "openai" "gpt-4o" [] 0 (fun _ => 0)
      (fun _ _ _ => .error .apiConnectionError)).1
      = .error (.uncaught (.retryError .apiConnectionError)) := rfl

/-- C7 witness: primary `openai` fails, `groq` (first in the chain) is skipped
for lack of a key, `openrouter` succeeds; the result is the openrouter
response with `used_fallback = true`. -/
theorem complete_with_fallback_ordering_witness :
    (complete_with_fallback ⟨100, 1000, false, fun _ => none⟩ (fun _ => none)
      (fun k => if k = "OPENROUTER_API_KEY" then some "x" else none)
      "openai" "gpt-4o" [] 0 (fun _ => 0)
      (fun p _ _ => if p = "openrouter" then .ok ⟨"hi", some 7⟩
        else .error .rateLimitError)).1
      = .ok ⟨"hi", "meta-llama/llama-3.1-70b-instruct", "openrouter", 7, true⟩
    ∧ (⟨"hi", "meta-llama/llama-3.1-70b-instruct", "openrouter", 7,
        false⟩ : LLMResponse).provider = "openrouter" := by
  have h := (complete_with_fallback_ordering ⟨100, 1000, false, fun _ => none⟩
    (fun _ => none) (fun k => if k = "OPENROUTER_API_KEY" then some "x" else none)
    "openai" "gpt-4o" [] 0 (fun _ => 0)
    (fun p _ _ => if p = "openrouter" then .ok ⟨"hi", some 7⟩
      else .error .rateLimitError) rfl).2
    [("groq", "llama-3.1-70b-versatile")] []
    "openrouter" "meta-llama/llama-3.1-70b-instruct" .rateLimitError
    ⟨"hi", "meta-llama/llama-3.1-70b-instruct", "openrouter", 7, false⟩
    rfl rfl (fun s => rfl)
    (by
      intro fb hm
      simp at hm
      subst hm
      exact Or.inl rfl)
    rfl (fun s => rfl)
  exact ⟨h.1, h.2.1⟩
